import Mathlib

/-!
Verification of the paste-storage service core (`src/service.rs`) against its
natural-language specification.

The service is embedded shallowly as a pure state machine:

* the credential registry is a list of users (username, password, paste_ids);
* the blob store (directory `data_dir`) is an association list from file name
  (the identifier string) to file content (a list of bytes);
* every operation of `Service` becomes a function on this state; operations
  that mutate return `Except Err α × Service` so that partial side effects
  performed before a failure are visible in the resulting state, exactly as
  they are on the real file system.

The registry type `State` (file `state.rs`) is not part of the provided
sources; its operations are modelled from the specification (§4.1 of the
spec), as noted on each of its definitions.
-/

set_option maxHeartbeats 1000000

namespace Pastebin

/-- The error kinds the service operations can produce:
`notAuthorized` for `anyhow!("Not authorized")`,
`pasteNotFound` for `anyhow::bail!("Paste not found")`,
`ioNotFound` for an underlying file-system `NotFound` error
(`File::open` on a missing path, `fs::remove_file` on a missing path),
`alreadyExists` for `File::create_new` on an existing path. -/
inductive Err where
  | notAuthorized
  | pasteNotFound
  | ioNotFound
  | alreadyExists
deriving DecidableEq, Repr

/-- Both `pasteNotFound` and `ioNotFound` surface as the `NotFound` error
kind of the specification's error model (§7). -/
def Err.isNotFoundKind : Err → Bool
  | .pasteNotFound => true
  | .ioNotFound => true
  | _ => false

/-- A registered user: username, password and the list of owned paste
identifiers, in insertion order (`paste_ids` in the source). -/
structure User where
  username : String
  password : String
  paste_ids : List String
deriving DecidableEq, Repr

/-- Modelled from the spec: the credential registry `State` (file `state.rs`,
absent from the provided sources) is an in-memory mapping
username → (password, owned-identifier list); we represent it as a list of
users in which the username is the unique key. -/
abbrev State := List User

/-- Modelled from the spec: `State::auth(username, password)` is a read-only
lookup returning the user only if the stored password matches exactly
(plain equality); it returns `none` on unknown user or password mismatch. -/
def State.auth (s : State) (username password : String) : Option User :=
  match s with
  | [] => none
  | u :: rest =>
    if u.username = username then
      if u.password = password then some u else none
    else State.auth rest username password

/-- Modelled from the spec: `State::auth_mut` uses the same matching rule as
`auth` and hands back a mutable reference to the matched user; functionally,
a successful `auth_mut` followed by a mutation of the user is applying `f`
to the first user whose username matches. -/
def State.updateAuthUser (s : State) (username : String) (f : User → User) : State :=
  match s with
  | [] => []
  | u :: rest =>
    if u.username = username then f u :: rest
    else u :: State.updateAuthUser rest username f

/-- The blob store: the contents of the data directory, one entry
per file, keyed by file name (the identifier string). -/
abbrev Disk := List (String × List Nat)

/-- Opening a file for read: the content of the first entry named `id`,
or `none` if no such file exists. -/
def Disk.lookup (d : Disk) (id : String) : Option (List Nat) :=
  match d with
  | [] => none
  | e :: rest => if e.1 = id then some e.2 else Disk.lookup rest id

/-- Existence check: `Path::exists` for `<data_dir>/<id>`. -/
def Disk.existsFile (d : Disk) (id : String) : Bool :=
  (Disk.lookup d id).isSome

/-- Exclusive creation: `tokio::fs::File::create_new` followed by `tokio::io::copy`: fails with
`AlreadyExists` if a file named `id` is present, otherwise creates the file
with the streamed content. -/
def Disk.createNew (d : Disk) (id : String) (content : List Nat) : Except Err Disk :=
  if Disk.existsFile d id then .error .alreadyExists
  else .ok (d ++ [(id, content)])

/-- Overwriting creation: `tokio::fs::File::create` followed by `tokio::io::copy`: truncates and
overwrites the file named `id` if present, creates it otherwise. -/
def Disk.overwrite (d : Disk) (id : String) (content : List Nat) : Disk :=
  match d with
  | [] => [(id, content)]
  | e :: rest =>
    if e.1 = id then (id, content) :: rest
    else e :: Disk.overwrite rest id content

/-- Deletion: `std::fs::remove_file` removes the file named `id`, failing with a
file-system `NotFound` error if it is absent. -/
def Disk.removeFile (d : Disk) (id : String) : Except Err Disk :=
  match d with
  | [] => .error .ioNotFound
  | e :: rest =>
    if e.1 = id then .ok rest
    else
      match Disk.removeFile rest id with
      | .error er => .error er
      | .ok rest2 => .ok (e :: rest2)

/-- A real directory holds at most one file per name; an arbitrary
association list can violate this, so theorems that need it assume it. -/
def Disk.keysNodup (d : Disk) : Prop :=
  (d.map Prod.fst).Nodup

instance (d : Disk) : Decidable (Disk.keysNodup d) := by
  unfold Disk.keysNodup; infer_instance

/-- The whole service state: the registry behind the mutex, and the
contents of the data directory. -/
structure Service where
  state : State
  disk : Disk
deriving DecidableEq, Repr

/-- The operation `Service::create(body, auth)`: authenticate if credentials were supplied,
write the blob exclusively under the fresh identifier `id` (the model takes
the generated `uuid` string as a parameter), then, if credentials were
supplied, re-authenticate mutably and append `id` to the user's `paste_ids`.
On failure the state mutated so far is returned alongside the error. -/
def Service.create (svc : Service) (body : List Nat) (auth : Option (String × String))
    (id : String) : Except Err String × Service :=
  match auth with
  | some (username, password) =>
    match State.auth svc.state username password with
    | none => (.error .notAuthorized, svc)
    | some _ =>
      match Disk.createNew svc.disk id body with
      | .error er => (.error er, svc)
      | .ok disk1 =>
        match State.auth svc.state username password with
        | none => (.error .notAuthorized, { svc with disk := disk1 })
        | some _ =>
          (.ok id,
            { state := State.updateAuthUser svc.state username
                (fun u => { u with paste_ids := u.paste_ids ++ [id] }),
              disk := disk1 })
  | none =>
    match Disk.createNew svc.disk id body with
    | .error er => (.error er, svc)
    | .ok disk1 => (.ok id, { svc with disk := disk1 })

/-- The operation `Service::read(id)`: open `<data_dir>/<id>`; no authentication. -/
def Service.read (svc : Service) (id : String) : Except Err (List Nat) :=
  match Disk.lookup svc.disk id with
  | none => .error .ioNotFound
  | some content => .ok content

/-- The operation `Service::replace(id, body, auth)`: if credentials were supplied,
authenticate and require `id` to be among the user's `paste_ids`; then
require the blob file to exist, and overwrite it. -/
def Service.replace (svc : Service) (id : String) (body : List Nat)
    (auth : Option (String × String)) : Except Err Unit × Service :=
  match auth with
  | some (username, password) =>
    match State.auth svc.state username password with
    | none => (.error .notAuthorized, svc)
    | some user =>
      if id ∈ user.paste_ids then
        if Disk.existsFile svc.disk id then
          (.ok (), { svc with disk := Disk.overwrite svc.disk id body })
        else (.error .pasteNotFound, svc)
      else (.error .pasteNotFound, svc)
  | none =>
    if Disk.existsFile svc.disk id then
      (.ok (), { svc with disk := Disk.overwrite svc.disk id body })
    else (.error .pasteNotFound, svc)

/-- The operation `Service::cleanup_dangling_files`: for every user drop the `paste_ids`
entries whose file is missing from disk, collect all surviving identifiers,
then remove every file whose name is not among them. -/
def Service.cleanup_dangling_files (svc : Service) : Service :=
  let users1 : State := svc.state.map (fun u =>
    { u with paste_ids := u.paste_ids.filter (fun id => Disk.existsFile svc.disk id) })
  let all_paste_ids : List String := (users1.map User.paste_ids).flatten
  { state := users1,
    disk := svc.disk.filter (fun e => e.1 ∈ all_paste_ids) }

/-- The operation `Service::delete(id, username, password)`: authenticate mutably, find the
identifier among the user's `paste_ids` (first occurrence), remove the blob
file (propagating a file-system failure), remove the `paste_ids` entry, then
run `cleanup_dangling_files`. -/
def Service.delete (svc : Service) (id_to_delete username password : String) :
    Except Err Unit × Service :=
  match State.auth svc.state username password with
  | none => (.error .notAuthorized, svc)
  | some user =>
    if id_to_delete ∈ user.paste_ids then
      match Disk.removeFile svc.disk id_to_delete with
      | .error er => (.error er, svc)
      | .ok disk1 =>
        let state1 := State.updateAuthUser svc.state username
          (fun u => { u with paste_ids := u.paste_ids.erase id_to_delete })
        (.ok (), Service.cleanup_dangling_files { state := state1, disk := disk1 })
    else (.error .pasteNotFound, svc)

/-- The operation `Service::list(username, password)`: authenticate and return the user's
`paste_ids` verbatim. -/
def Service.list (svc : Service) (username password : String) :
    Except Err (List String) :=
  match State.auth svc.state username password with
  | none => .error .notAuthorized
  | some user => .ok user.paste_ids

/-- The pass of `cleanup_dangling_files` over one user, named for the
proofs: keep only the `paste_ids` whose file exists on disk `d`. -/
def retainUser (d : Disk) (u : User) : User :=
  { u with paste_ids := u.paste_ids.filter (fun id => Disk.existsFile d id) }

/-- The set `all_paste_ids`  built by `cleanup_dangling_files`: every
identifier surviving the retain pass, named for the proofs. -/
def survivingIds (d : Disk) (s : State) : List String :=
  ((s.map (retainUser d)).map User.paste_ids).flatten

/-! ### Helper lemmas about the blob store -/

theorem Disk.lookup_eq_none_iff {d : Disk} {id : String} :
    Disk.lookup d id = none ↔ ∀ e ∈ d, e.1 ≠ id := by
  induction d with
  | nil => simp [Disk.lookup]
  | cons e rest ih =>
    by_cases h : e.1 = id
    · simp [Disk.lookup, h]
    · simp [Disk.lookup, h, ih]

theorem Disk.existsFile_iff {d : Disk} {id : String} :
    Disk.existsFile d id = true ↔ ∃ e ∈ d, e.1 = id := by
  rw [Disk.existsFile, Option.isSome_iff_ne_none, ne_eq, Disk.lookup_eq_none_iff]
  push_neg
  rfl

theorem Disk.lookup_append_self {d : Disk} {id : String} {c : List Nat}
    (h : Disk.lookup d id = none) :
    Disk.lookup (d ++ [(id, c)]) id = some c := by
  induction d with
  | nil => simp [Disk.lookup]
  | cons e rest ih =>
    by_cases he : e.1 = id
    · simp [Disk.lookup, he] at h
    · simp only [Disk.lookup, he, if_neg] at h
      simp only [List.cons_append, Disk.lookup, he, if_neg]
      exact ih h

theorem Disk.lookup_overwrite (d : Disk) (id : String) (c : List Nat) :
    Disk.lookup (Disk.overwrite d id c) id = some c := by
  induction d with
  | nil => simp [Disk.overwrite, Disk.lookup]
  | cons e rest ih =>
    by_cases he : e.1 = id
    · simp [Disk.overwrite, he, Disk.lookup]
    · simp [Disk.overwrite, he, Disk.lookup, ih]

theorem Disk.removeFile_error {d : Disk} {id : String} {er : Err}
    (h : Disk.removeFile d id = .error er) : er = .ioNotFound := by
  induction d with
  | nil =>
    simp [Disk.removeFile] at h
    exact h.symm
  | cons e rest ih =>
    by_cases he : e.1 = id
    · simp [Disk.removeFile, he] at h
    · simp only [Disk.removeFile, he, if_neg] at h
      cases hr : Disk.removeFile rest id with
      | error er2 => rw [hr] at h; cases h; exact ih hr
      | ok rest2 => rw [hr] at h; cases h

theorem Disk.removeFile_of_exists {d : Disk} {id : String}
    (h : Disk.existsFile d id = true) : ∃ d1, Disk.removeFile d id = .ok d1 := by
  induction d with
  | nil => simp [Disk.existsFile, Disk.lookup] at h
  | cons e rest ih =>
    by_cases he : e.1 = id
    · exact ⟨rest, by simp [Disk.removeFile, he]⟩
    · simp only [Disk.existsFile, Disk.lookup, he, if_neg] at h
      obtain ⟨d1, hd1⟩ := ih h
      exact ⟨e :: d1, by simp [Disk.removeFile, he, hd1]⟩

theorem Disk.lookup_removeFile {d d1 : Disk} {id : String}
    (hnd : Disk.keysNodup d) (h : Disk.removeFile d id = .ok d1) :
    Disk.lookup d1 id = none := by
  induction d generalizing d1 with
  | nil => simp [Disk.removeFile] at h
  | cons e rest ih =>
    rw [Disk.keysNodup, List.map_cons, List.nodup_cons] at hnd
    by_cases he : e.1 = id
    · simp only [Disk.removeFile, he, if_pos] at h
      cases h
      rw [Disk.lookup_eq_none_iff]
      intro e2 he2 he2k
      exact hnd.1 (he ▸ he2k ▸ List.mem_map_of_mem Prod.fst he2)
    · simp only [Disk.removeFile, he, if_neg] at h
      cases hr : Disk.removeFile rest id with
      | error er2 => rw [hr] at h; cases h
      | ok rest2 =>
        rw [hr] at h
        cases h
        simp only [Disk.lookup, he, if_neg]
        exact ih hnd.2 hr

theorem Disk.lookup_filter_none {d : Disk} {p : String × List Nat → Bool} {id : String}
    (h : Disk.lookup d id = none) : Disk.lookup (d.filter p) id = none := by
  rw [Disk.lookup_eq_none_iff] at h ⊢
  intro e he
  exact h e (List.mem_filter.mp he).1

theorem Disk.existsFile_filter {d : Disk} {id : String} {all : List String}
    (h : Disk.existsFile d id = true) (hmem : id ∈ all) :
    Disk.existsFile (d.filter (fun e => e.1 ∈ all)) id = true := by
  rw [Disk.existsFile_iff] at h ⊢
  obtain ⟨e, he, hek⟩ := h
  exact ⟨e, List.mem_filter.mpr ⟨he, by simp [hek, hmem]⟩, hek⟩

/-! ### Helper lemmas about the credential registry -/

theorem State.auth_map (s : State) (username password : String) (f : User → User)
    (hfu : ∀ u, (f u).username = u.username)
    (hfp : ∀ u, (f u).password = u.password) :
    State.auth (s.map f) username password = (State.auth s username password).map f := by
  induction s with
  | nil => rfl
  | cons u rest ih =>
    by_cases h1 : u.username = username
    · simp only [List.map_cons, State.auth, hfu, hfp, h1, if_pos]
      by_cases h2 : u.password = password <;> simp [h2]
    · simp only [List.map_cons, State.auth, hfu, h1, if_neg]
      exact ih

theorem State.auth_updateAuthUser (s : State) (username password : String) (f : User → User)
    (hfu : ∀ u, (f u).username = u.username)
    (hfp : ∀ u, (f u).password = u.password) :
    State.auth (State.updateAuthUser s username f) username password
      = (State.auth s username password).map f := by
  induction s with
  | nil => rfl
  | cons u rest ih =>
    by_cases h1 : u.username = username
    · simp only [State.updateAuthUser, h1, if_pos, State.auth, hfu, hfp]
      by_cases h2 : u.password = password <;> simp [h2]
    · simp only [State.updateAuthUser, h1, if_neg, State.auth]
      exact ih

theorem map_congr_mem {α β : Type} {l : List α} {f g : α → β}
    (h : ∀ a ∈ l, f a = g a) : l.map f = l.map g := by
  induction l with
  | nil => rfl
  | cons a rest ih =>
    simp only [List.map_cons, h a (List.mem_cons_self a rest)]
    exact congrArg _ (ih fun b hb => h b (List.mem_cons_of_mem a hb))

theorem createNew_ok {d d1 : Disk} {id : String} {c : List Nat}
    (h : Disk.createNew d id c = .ok d1) :
    Disk.lookup d id = none ∧ d1 = d ++ [(id, c)] := by
  unfold Disk.createNew Disk.existsFile at h
  cases hl : Disk.lookup d id with
  | some c2 => rw [hl] at h; simp at h
  | none =>
    rw [hl] at h
    simp at h
    exact ⟨rfl, h.symm⟩

/-- Characterization of a successful authenticated `create`. -/
theorem create_ok_some {svc : Service} {body : List Nat} {u p id id' : String}
    {svc' : Service}
    (h : Service.create svc body (some (u, p)) id = (.ok id', svc')) :
    ∃ user, State.auth svc.state u p = some user ∧
      Disk.lookup svc.disk id = none ∧ id' = id ∧
      svc' = { state := State.updateAuthUser svc.state u
                  (fun v => { v with paste_ids := v.paste_ids ++ [id] }),
               disk := svc.disk ++ [(id, body)] } := by
  cases hauth : State.auth svc.state u p with
  | none => simp [Service.create, hauth] at h
  | some user =>
    simp only [Service.create, hauth] at h
    cases hcn : Disk.createNew svc.disk id body with
    | error er => simp only [hcn] at h; simp at h
    | ok d1 =>
      obtain ⟨hlk, hd1⟩ := createNew_ok hcn
      simp only [hcn, Prod.mk.injEq, Except.ok.injEq] at h
      exact ⟨user, rfl, hlk, h.1.symm ▸ rfl, h.2.symm ▸ by rw [hd1]⟩

/-- Characterization of a successful anonymous `create`. -/
theorem create_ok_none {svc : Service} {body : List Nat} {id id' : String}
    {svc' : Service}
    (h : Service.create svc body none id = (.ok id', svc')) :
    Disk.lookup svc.disk id = none ∧ id' = id ∧
      svc' = { svc with disk := svc.disk ++ [(id, body)] } := by
  simp only [Service.create] at h
  cases hcn : Disk.createNew svc.disk id body with
  | error er => simp only [hcn] at h; simp at h
  | ok d1 =>
    obtain ⟨hlk, hd1⟩ := createNew_ok hcn
    simp only [hcn, Prod.mk.injEq, Except.ok.injEq] at h
    exact ⟨hlk, h.1.symm ▸ rfl, h.2.symm ▸ by rw [hd1]⟩

/-! ### The claims -/

/-- Claim C1: for every successful `create(content, auth)` call returning
identifier `id'`, a subsequent `read(id')` with no intervening mutation of
that blob returns content byte-identical to what was uploaded. -/
theorem C1_create_then_read (svc : Service) (body : List Nat)
    (auth : Option (String × String)) (id id' : String) (svc' : Service)
    (h : Service.create svc body auth id = (.ok id', svc')) :
    Service.read svc' id' = .ok body := by
  rcases auth with _ | ⟨u, p⟩
  · obtain ⟨hlk, hid, hsvc⟩ := create_ok_none h
    subst hid; subst hsvc
    simp [Service.read, Disk.lookup_append_self hlk]
  · obtain ⟨user, hauth, hlk, hid, hsvc⟩ := create_ok_some h
    subst hid; subst hsvc
    simp [Service.read, Disk.lookup_append_self hlk]

/-- Witness for C1 at a concrete state: an authenticated upload of bytes
`[104, 105]` is read back unchanged. -/
theorem C1_create_then_read_witness :
    Service.read
      (Service.mk [⟨"alice", "pw", ["id1"]⟩] [("id1", [104, 105])]) "id1"
      = .ok [104, 105] :=
  C1_create_then_read (Service.mk [⟨"alice", "pw", []⟩] []) [104, 105]
    (some ("alice", "pw")) "id1" "id1"
    (Service.mk [⟨"alice", "pw", ["id1"]⟩] [("id1", [104, 105])]) rfl

/-- Claim C5: `replace` with valid credentials fails `NotFound` ("Paste not
found") whenever the identifier is not in that user's `paste_ids`, even if a
blob for it exists on disk, and the service state — in particular the
existing blob's content — is unchanged. -/
theorem C5_replace_not_owned (svc : Service) (id u p : String) (body : List Nat)
    (user : User) (hauth : State.auth svc.state u p = some user)
    (hid : id ∉ user.paste_ids) :
    Service.replace svc id body (some (u, p)) = (.error .pasteNotFound, svc) := by
  simp [Service.replace, hauth, hid]

/-- Witness for C5 at a concrete state: `alice` replacing `bob`'s paste
`"i2"` (whose blob exists on disk) fails with `pasteNotFound` and leaves
everything unchanged. -/
theorem C5_replace_not_owned_witness :
    Service.replace
      (Service.mk [⟨"alice", "pw", ["i1"]⟩, ⟨"bob", "pw2", ["i2"]⟩]
        [("i1", [1]), ("i2", [2])]) "i2" [9] (some ("alice", "pw"))
      = (.error .pasteNotFound,
         Service.mk [⟨"alice", "pw", ["i1"]⟩, ⟨"bob", "pw2", ["i2"]⟩]
           [("i1", [1]), ("i2", [2])]) :=
  C5_replace_not_owned _ "i2" "alice" "pw" [9] ⟨"alice", "pw", ["i1"]⟩ rfl
    (by simp)

/-- Claim C8: `create` with credentials matching no registered user fails
`Unauthorized`, writes no blob file to disk, and leaves the registry
unchanged (the returned state is the original state). -/
theorem C8_create_bad_auth (svc : Service) (body : List Nat) (u p id : String)
    (h : State.auth svc.state u p = none) :
    Service.create svc body (some (u, p)) id = (.error .notAuthorized, svc) := by
  simp [Service.create, h]

/-- Witness for C8 at a concrete state: unregistered `bob` cannot create,
and the state is untouched. -/
theorem C8_create_bad_auth_witness :
    Service.create (Service.mk [⟨"alice", "pw", []⟩] []) [1, 2]
      (some ("bob", "wrong")) "id1"
      = (.error .notAuthorized, Service.mk [⟨"alice", "pw", []⟩] []) :=
  C8_create_bad_auth (Service.mk [⟨"alice", "pw", []⟩] []) [1, 2] "bob" "wrong"
    "id1" rfl

/-- Claim C9: for every identifier whose blob file exists on disk,
`replace(id, content, None)` performs no authentication and no ownership
check and succeeds, overwriting the blob's content — even when the
identifier is owned by some user (the registry plays no role and is left
unchanged). -/
theorem C9_replace_anonymous (svc : Service) (id : String) (body : List Nat)
    (h : Disk.existsFile svc.disk id = true) :
    Service.replace svc id body none
        = (.ok (), { svc with disk := Disk.overwrite svc.disk id body }) ∧
      Disk.lookup (Disk.overwrite svc.disk id body) id = some body := by
  refine ⟨?_, Disk.lookup_overwrite svc.disk id body⟩
  simp [Service.replace, h]

/-- Witness for C9 at a concrete state: the blob `"i1"` is owned by `alice`,
yet an unauthenticated replace succeeds and overwrites its content. -/
theorem C9_replace_anonymous_witness :
    Service.replace (Service.mk [⟨"alice", "pw", ["i1"]⟩] [("i1", [1])])
        "i1" [9] none
        = (.ok (), Service.mk [⟨"alice", "pw", ["i1"]⟩] [("i1", [9])]) ∧
      Disk.lookup [("i1", [9])] "i1" = some [9] :=
  C9_replace_anonymous (Service.mk [⟨"alice", "pw", ["i1"]⟩] [("i1", [1])])
    "i1" [9] rfl

/-- Claim C10: in `create` with authentication, since `auth_mut` uses the
same matching rule as `auth`, under sequential execution the post-blob-write
`Unauthorized` branch is unreachable: if the initial authentication
succeeds, `create` never returns `Unauthorized`; and whenever `create` does
return `Unauthorized`, no blob was written (the state is unchanged). -/
theorem C10_no_unauthorized_after_write (svc : Service) (body : List Nat)
    (u p id : String) :
    ((State.auth svc.state u p).isSome = true →
      (Service.create svc body (some (u, p)) id).1 ≠ .error .notAuthorized) ∧
    ((Service.create svc body (some (u, p)) id).1 = .error .notAuthorized →
      (Service.create svc body (some (u, p)) id).2 = svc) := by
  cases hauth : State.auth svc.state u p with
  | none => simp [Service.create, hauth]
  | some user =>
    cases hcn : Disk.createNew svc.disk id body with
    | error er =>
      have her : er = .alreadyExists := by
        by_cases hex : Disk.existsFile svc.disk id = true
        · simp [Disk.createNew, hex] at hcn
          exact hcn.symm
        · simp [Disk.createNew, hex] at hcn
      subst her
      simp [Service.create, hauth, hcn]
    | ok d1 => simp [Service.create, hauth, hcn]

/-- Witness for C10 at a concrete state: `alice` authenticates, so her
`create` does not return `Unauthorized`. -/
theorem C10_no_unauthorized_after_write_witness :
    (Service.create (Service.mk [⟨"alice", "pw", []⟩] []) [1]
        (some ("alice", "pw")) "id1").1 ≠ .error .notAuthorized :=
  (C10_no_unauthorized_after_write (Service.mk [⟨"alice", "pw", []⟩] []) [1]
    "alice" "pw" "id1").1 rfl

/-- Rewriting `cleanup_dangling_files` with the named helpers. -/
theorem cleanup_eq (svc : Service) :
    Service.cleanup_dangling_files svc
      = Service.mk (svc.state.map (retainUser svc.disk))
          (svc.disk.filter (fun e => e.1 ∈ survivingIds svc.disk svc.state)) := rfl

/-- Claim C7: for every successful authenticated `create` returning `id'`,
a `list` call with the same credentials immediately after returns the user's
`paste_ids` in insertion order with `id'` as the last element. -/
theorem C7_create_then_list (svc : Service) (body : List Nat) (u p id id' : String)
    (svc' : Service)
    (h : Service.create svc body (some (u, p)) id = (.ok id', svc')) :
    ∃ l, Service.list svc u p = .ok l ∧ Service.list svc' u p = .ok (l ++ [id']) := by
  obtain ⟨user, hauth, hlk, hid, hsvc⟩ := create_ok_some h
  subst hid; subst hsvc
  refine ⟨user.paste_ids, by simp [Service.list, hauth], ?_⟩
  simp only [Service.list]
  rw [State.auth_updateAuthUser svc.state u p
    (fun v => { v with paste_ids := v.paste_ids ++ [id'] })
    (fun v => rfl) (fun v => rfl), hauth]
  rfl

/-- Witness for C7 at a concrete state: after `alice` (who already owns
`"i0"`) creates `"id1"`, her list is `["i0", "id1"]`. -/
theorem C7_create_then_list_witness :
    ∃ l, Service.list (Service.mk [⟨"alice", "pw", ["i0"]⟩] [("i0", [7])])
        "alice" "pw" = .ok l ∧
      Service.list
        (Service.mk [⟨"alice", "pw", ["i0", "id1"]⟩] [("i0", [7]), ("id1", [1])])
        "alice" "pw" = .ok (l ++ ["id1"]) :=
  C7_create_then_list (Service.mk [⟨"alice", "pw", ["i0"]⟩] [("i0", [7])]) [1]
    "alice" "pw" "id1" "id1"
    (Service.mk [⟨"alice", "pw", ["i0", "id1"]⟩] [("i0", [7]), ("id1", [1])]) rfl

/-- Claim C3 as stated is false at a concrete input: `alice` is registered
with password `"pw"` and owns `"i1"`, but the blob file for `"i1"` is
missing from disk (a crash state that reconciliation has not yet repaired),
so `delete` propagates the file-system `NotFound` error instead of
succeeding, although the credentials match and `"i1"` is among her
`paste_ids`. -/
theorem C3_counterexample :
    State.auth [⟨"alice", "pw", ["i1"]⟩] "alice" "pw"
        = some ⟨"alice", "pw", ["i1"]⟩ ∧
      "i1" ∈ (User.mk "alice" "pw" ["i1"]).paste_ids ∧
      (Service.delete (Service.mk [⟨"alice", "pw", ["i1"]⟩] [])
          "i1" "alice" "pw").1 = .error .ioNotFound :=
  ⟨rfl, by simp, rfl⟩

/-- Claim C3 (amended): `delete(id, username, password)` fails `Unauthorized`
exactly when the credentials do not match a registered user; given matching
credentials, it fails with the "Paste not found" error exactly when `id` is
not among that user's `paste_ids`; and when the credentials match, `id` is
among the user's `paste_ids`, and the blob file for `id` exists on disk,
`delete` succeeds. (Without the last hypothesis `delete` propagates the
file-system error of `remove_file`.) -/
theorem C3_delete_error_cases (svc : Service) (id u p : String) :
    ((Service.delete svc id u p).1 = .error .notAuthorized ↔
      State.auth svc.state u p = none) ∧
    (∀ user, State.auth svc.state u p = some user →
      ((Service.delete svc id u p).1 = .error .pasteNotFound ↔
        id ∉ user.paste_ids)) ∧
    (∀ user, State.auth svc.state u p = some user → id ∈ user.paste_ids →
      Disk.existsFile svc.disk id = true →
      (Service.delete svc id u p).1 = .ok ()) := by
  cases hauth : State.auth svc.state u p with
  | none => simp [Service.delete, hauth]
  | some user =>
    refine ⟨?_, ?_, ?_⟩
    · by_cases hmem : id ∈ user.paste_ids
      · simp only [Service.delete, hauth, hmem, if_pos]
        cases hrm : Disk.removeFile svc.disk id with
        | error er =>
          have her := Disk.removeFile_error hrm
          subst her
          simp
        | ok d1 => simp
      · simp [Service.delete, hauth, hmem]
    · intro user2 huser2
      injection huser2 with h2
      subst h2
      by_cases hmem : id ∈ user.paste_ids
      · simp only [Service.delete, hauth, hmem, if_pos]
        cases hrm : Disk.removeFile svc.disk id with
        | error er =>
          have her := Disk.removeFile_error hrm
          subst her
          simp [hmem]
        | ok d1 => simp [hmem]
      · simp [Service.delete, hauth, hmem]
    · intro user2 huser2 hmem hex
      injection huser2 with h2
      subst h2
      obtain ⟨d1, hd1⟩ := Disk.removeFile_of_exists hex
      simp [Service.delete, hauth, hmem, hd1]

/-- Witness for C3 (amended) at a concrete state: with matching credentials,
owned identifier and present blob file, `delete` succeeds. -/
theorem C3_delete_error_cases_witness :
    (Service.delete (Service.mk [⟨"alice", "pw", ["i1"]⟩] [("i1", [1])])
        "i1" "alice" "pw").1 = .ok () :=
  (C3_delete_error_cases (Service.mk [⟨"alice", "pw", ["i1"]⟩] [("i1", [1])])
      "i1" "alice" "pw").2.2
    ⟨"alice", "pw", ["i1"]⟩ rfl (by simp) rfl

/-- Characterization of a successful `delete`. -/
theorem delete_ok {svc : Service} {id u p : String} {svc' : Service}
    (h : Service.delete svc id u p = (.ok (), svc')) :
    ∃ user d1, State.auth svc.state u p = some user ∧ id ∈ user.paste_ids ∧
      Disk.removeFile svc.disk id = .ok d1 ∧
      svc' = Service.cleanup_dangling_files
        { state := State.updateAuthUser svc.state u
            (fun v => { v with paste_ids := v.paste_ids.erase id }),
          disk := d1 } := by
  cases hauth : State.auth svc.state u p with
  | none => simp [Service.delete, hauth] at h
  | some user =>
    by_cases hmem : id ∈ user.paste_ids
    · simp only [Service.delete, hauth, hmem, if_pos] at h
      cases hrm : Disk.removeFile svc.disk id with
      | error er => simp [hrm] at h
      | ok d1 =>
        simp only [hrm, Prod.mk.injEq] at h
        exact ⟨user, d1, rfl, hmem, rfl, h.2.symm⟩
    · simp [Service.delete, hauth, hmem] at h

/-- Claim C4: after a successful `delete(id, username, password)` (on a disk
without duplicate file names), `read(id)` fails `NotFound`, and `id` no
longer appears in the result of `list(username, password)`: the blob file
and the `paste_ids` entry are both gone. -/
theorem C4_delete_then_read (svc : Service) (id u p : String) (svc' : Service)
    (hnd : Disk.keysNodup svc.disk)
    (h : Service.delete svc id u p = (.ok (), svc')) :
    Service.read svc' id = .error .ioNotFound ∧
      ∃ l, Service.list svc' u p = .ok l ∧ id ∉ l := by
  obtain ⟨user, d1, hauth, hmem, hrm, hsvc⟩ := delete_ok h
  subst hsvc
  have hlk1 : Disk.lookup d1 id = none := Disk.lookup_removeFile hnd hrm
  rw [cleanup_eq]
  constructor
  · simp [Service.read, Disk.lookup_filter_none hlk1]
  · refine ⟨(retainUser d1
        { user with paste_ids := user.paste_ids.erase id }).paste_ids, ?_, ?_⟩
    · simp only [Service.list]
      rw [State.auth_map _ u p (retainUser d1) (fun v => rfl) (fun v => rfl),
        State.auth_updateAuthUser svc.state u p
          (fun v => { v with paste_ids := v.paste_ids.erase id })
          (fun v => rfl) (fun v => rfl), hauth]
      rfl
    · intro hmem2
      have hex := (List.mem_filter.mp hmem2).2
      rw [Disk.existsFile, hlk1] at hex
      simp at hex

/-- Witness for C4 at a concrete state: deleting `alice`'s only paste makes
its read fail and empties her list. -/
theorem C4_delete_then_read_witness :
    Service.read (Service.mk [⟨"alice", "pw", []⟩] []) "i1"
        = .error .ioNotFound ∧
      ∃ l, Service.list (Service.mk [⟨"alice", "pw", []⟩] []) "alice" "pw"
          = .ok l ∧ "i1" ∉ l :=
  C4_delete_then_read (Service.mk [⟨"alice", "pw", ["i1"]⟩] [("i1", [1, 2])])
    "i1" "alice" "pw" (Service.mk [⟨"alice", "pw", []⟩] [])
    (by simp [Disk.keysNodup]) rfl

/-- Claim C2: after a run of `cleanup_dangling_files`, every remaining
`paste_ids` entry of every user has a corresponding blob file on disk, every
blob file on disk is referenced by some user's `paste_ids`, and reading any
identifier that no user referenced beforehand (in particular any anonymous
blob) fails `NotFound` afterwards. -/
theorem C2_cleanup_reconciles (svc : Service) :
    (∀ user ∈ (Service.cleanup_dangling_files svc).state,
      ∀ id ∈ user.paste_ids,
        Disk.existsFile (Service.cleanup_dangling_files svc).disk id = true) ∧
    (∀ e ∈ (Service.cleanup_dangling_files svc).disk,
      ∃ user ∈ (Service.cleanup_dangling_files svc).state,
        e.1 ∈ user.paste_ids) ∧
    (∀ id, (∀ user ∈ svc.state, id ∉ user.paste_ids) →
      Service.read (Service.cleanup_dangling_files svc) id
        = .error .ioNotFound) := by
  rw [cleanup_eq]
  refine ⟨?_, ?_, ?_⟩
  · intro user huser idv hidv
    obtain ⟨u0, hu0, rfl⟩ := List.mem_map.mp huser
    have hex : Disk.existsFile svc.disk idv = true :=
      (List.mem_filter.mp hidv).2
    have hall : idv ∈ survivingIds svc.disk svc.state :=
      List.mem_flatten.mpr
        ⟨(retainUser svc.disk u0).paste_ids,
          List.mem_map_of_mem User.paste_ids
            (List.mem_map_of_mem (retainUser svc.disk) hu0), hidv⟩
    exact Disk.existsFile_filter hex hall
  · intro e he
    have hall : e.1 ∈ survivingIds svc.disk svc.state := by
      have := (List.mem_filter.mp he).2
      simpa using this
    obtain ⟨l, hl, hel⟩ := List.mem_flatten.mp hall
    obtain ⟨user, huser, rfl⟩ := List.mem_map.mp hl
    exact ⟨user, huser, hel⟩
  · intro idv hnone
    have hlk : Disk.lookup
        (svc.disk.filter (fun e => e.1 ∈ survivingIds svc.disk svc.state))
        idv = none := by
      rw [Disk.lookup_eq_none_iff]
      intro e he hek
      have hall : e.1 ∈ survivingIds svc.disk svc.state := by
        have := (List.mem_filter.mp he).2
        simpa using this
      obtain ⟨l, hl, hel⟩ := List.mem_flatten.mp hall
      obtain ⟨u0, hu0, rfl⟩ := List.mem_map.mp hl
      obtain ⟨u1, hu1, rfl⟩ := List.mem_map.mp hu0
      have : e.1 ∈ u1.paste_ids := (List.mem_filter.mp hel).1
      exact hnone u1 hu1 (hek ▸ this)
    simp [Service.read, hlk]

/-- Witness for C2 at a concrete state: `"i2"` is an anonymous blob (no
user references it), so after reconciliation reading it fails. -/
theorem C2_cleanup_reconciles_witness :
    Service.read
      (Service.cleanup_dangling_files
        (Service.mk [⟨"alice", "pw", ["i1", "i3"]⟩] [("i1", [1]), ("i2", [2])]))
      "i2" = .error .ioNotFound :=
  (C2_cleanup_reconciles
      (Service.mk [⟨"alice", "pw", ["i1", "i3"]⟩] [("i1", [1]), ("i2", [2])])).2.2
    "i2" (by simp)

/-- Claim C6: reconciliation is idempotent — running
`cleanup_dangling_files` twice in succession with no intervening mutation
leaves the registry and the set of blob files exactly as after the first
run. -/
theorem C6_cleanup_idempotent (svc : Service) :
    Service.cleanup_dangling_files (Service.cleanup_dangling_files svc)
      = Service.cleanup_dangling_files svc := by
  rw [cleanup_eq svc]
  set s1 : State := svc.state.map (retainUser svc.disk) with hs1
  set d1 : Disk :=
    svc.disk.filter (fun e => e.1 ∈ survivingIds svc.disk svc.state) with hd1
  rw [cleanup_eq]
  dsimp only
  have husers : s1.map (retainUser d1) = s1 := by
    refine (map_congr_mem ?_).trans (List.map_id _)
    intro u hu
    rw [hs1] at hu
    obtain ⟨u0, hu0, rfl⟩ := List.mem_map.mp hu
    have hfix : ((retainUser svc.disk u0).paste_ids.filter
        (fun id => Disk.existsFile d1 id))
        = (retainUser svc.disk u0).paste_ids := by
      rw [List.filter_eq_self]
      intro idv hidv
      have hex : Disk.existsFile svc.disk idv = true :=
        (List.mem_filter.mp hidv).2
      have hall : idv ∈ survivingIds svc.disk svc.state :=
        List.mem_flatten.mpr
          ⟨(retainUser svc.disk u0).paste_ids,
            List.mem_map_of_mem User.paste_ids
              (List.mem_map_of_mem (retainUser svc.disk) hu0), hidv⟩
      rw [hd1]
      exact Disk.existsFile_filter hex hall
    show retainUser d1 (retainUser svc.disk u0) = retainUser svc.disk u0
    unfold retainUser
    simp only [User.mk.injEq]
    exact ⟨trivial, trivial, hfix⟩
  have hsur : survivingIds d1 s1 = survivingIds svc.disk svc.state := by
    rw [survivingIds, husers, hs1, survivingIds]
  rw [husers, hsur]
  have hdisk : d1.filter (fun e => e.1 ∈ survivingIds svc.disk svc.state)
      = d1 := by
    rw [List.filter_eq_self]
    intro e he
    rw [hd1] at he
    exact (List.mem_filter.mp he).2
  rw [hdisk]

end Pastebin
